import Mathlib

/-!
# VRUco standalone tracker: pose pipeline and calibration loader

A shallow embedding of `Standalone/VRUco Standalone/Main.cpp`.

* Numbers (`float`, `double`) are idealised as elements of a linearly ordered
  field `K`; the elementary functions `sqrt`, `sin`, `cos` are supplied by the
  caller, so every definition stays executable (for instance over `ℚ`), while
  the numerical theorems instantiate them with the real functions.
* The external collaborators of the tracking loop (marker detector, point
  projection, PnP solver, Rodrigues conversion, room setup) are inputs.
* The writes to the shared data packet are recorded as an ordered trace, and
  the packet after an iteration is that trace applied in order.
* The calibration loader takes the stream extraction operators as an input; a
  store outside a matrix buffer has no defined result and is `none`.
-/

namespace VRUco

/-! ## Plain data -/

/-- The type `cv::Point2f`. -/
structure Point2f (K : Type) where
  x : K
  y : K
deriving DecidableEq, Repr

/-- The type `cv::Point3f` (also used for `cv::Vec3f` and 3-element `cv::Mat` vectors;
components `x, y, z` are the indices `0, 1, 2`). -/
structure Point3f (K : Type) where
  x : K
  y : K
  z : K
deriving DecidableEq, Repr

/-- Three-component vector, `cv::Vec3f`. -/
abbrev Vec3 (K : Type) := Point3f K

/-- A 3×3 matrix, the output of `cv::Rodrigues`; `mij` is row `i`, column `j`. -/
structure Mat3 (K : Type) where
  m00 : K
  m01 : K
  m02 : K
  m10 : K
  m11 : K
  m12 : K
  m20 : K
  m21 : K
  m22 : K
deriving DecidableEq, Repr

/-- The type `glm::quat`, constructed as `glm::quat(w, x, y, z)`. -/
structure Quat (K : Type) where
  w : K
  x : K
  y : K
  z : K
deriving DecidableEq, Repr

/-- A dense `cv::Mat` of `CV_64F`: `rows × cols` with a row-major buffer whose row
stride is `cols` elements. -/
structure Mat (K : Type) where
  rows : Nat
  cols : Nat
  data : List K
deriving DecidableEq, Repr

/-- A detected marker, `aruco::Marker`: its id, the marker-local 3D corners returned by
`get3DPoints()` and the single-marker pose `Rvec`, `Tvec`. -/
structure Marker (K : Type) where
  id : Int
  points3D : List (Point3f K)
  Rvec : Vec3 K
  Tvec : Vec3 K
deriving DecidableEq, Repr

/-- An element of `aruco::MarkerMap`, `aruco::Marker3DInfo`: id and room-space points. -/
structure Marker3DInfo (K : Type) where
  id : Int
  points : List (Point3f K)
deriving DecidableEq, Repr

/-- Modelled from the spec: the record `SharedPacket::DataPacket` of `SharedPacket.h`
(field order position[3], quaternion[4] as x, y, z, w, then the boolean flag). -/
structure DataPacket (K : Type) where
  hmd_position : Vec3 K
  hmd_quaternion : Quat K
  new_data_available : Bool
deriving DecidableEq, Repr

/-- One store into the shared data packet. -/
inductive Write (K : Type) where
  | position (i : Fin 3) (v : K)
  | quaternion (i : Fin 4) (v : K)
  | new_data (b : Bool)
deriving DecidableEq, Repr

/-- Assignment `v[i] = a` on a 3-vector. -/
def Point3f.set {K : Type} (v : Point3f K) (i : Fin 3) (a : K) : Point3f K :=
  match i with
  | 0 => { v with x := a }
  | 1 => { v with y := a }
  | 2 => { v with z := a }

/-- Assignment `hmd_quaternion[i] = a`; the array is laid out x, y, z, w. -/
def Quat.set {K : Type} (q : Quat K) (i : Fin 4) (a : K) : Quat K :=
  match i with
  | 0 => { q with x := a }
  | 1 => { q with y := a }
  | 2 => { q with z := a }
  | 3 => { q with w := a }

/-- Effect of one store on the packet. -/
def applyWrite {K : Type} (dp : DataPacket K) : Write K → DataPacket K
  | .position i v => { dp with hmd_position := dp.hmd_position.set i v }
  | .quaternion i v => { dp with hmd_quaternion := dp.hmd_quaternion.set i v }
  | .new_data b => { dp with new_data_available := b }

/-- Effect of a sequence of stores, first to last. -/
def applyWrites {K : Type} (dp : DataPacket K) (ws : List (Write K)) : DataPacket K :=
  ws.foldl applyWrite dp

/-- The variables captured by `runner_thread` that the loop reads or writes. -/
structure TrackerState (K : Type) where
  set_centre : Bool
  exit_requested : Bool
  wants_calibration : Bool
  has_ransac : Bool
  centre_offset : Vec3 K
  marker_map : List (Marker3DInfo K)
  dp : DataPacket K
  fps : Int
deriving DecidableEq, Repr

/-- The loaded intrinsics, constant during tracking. -/
structure Intrinsics (K : Type) where
  camera_matrix : Mat K
  distance_coefficients : Mat K

/-- The library functions the loop calls: `sqrt`, `glm::sin`, `glm::cos`,
`cv::projectPoints`, `cv::solvePnPRansac` (returning `rvec`, `tvec`) and `cv::Rodrigues`. -/
structure Collaborators (K : Type) where
  sqrt : K → K
  sin : K → K
  cos : K → K
  projectPoints : List (Point3f K) → Vec3 K → Vec3 K → Mat K → Mat K → List (Point2f K)
  solvePnPRansac : List (Point3f K) → List (Point2f K) → Mat K → Mat K → Bool → Vec3 K × Vec3 K
  Rodrigues : Vec3 K → Mat3 K

/-- What the outside world supplies to one loop iteration: the map `RoomSetup::GetMarkerMap`
would return, the markers `marker_detector.detect` finds in the frame, and whether more
than a second has passed since the last FPS log line. -/
structure FrameInput (K : Type) where
  room_setup : List (Marker3DInfo K)
  markers : List (Marker K)
  second_elapsed : Bool

/-- A line read by the control loop of `main`. -/
inductive Command where
  | exit
  | centre
  | calibrate
  | invalid
deriving DecidableEq, Repr

/-- What the other parties did since the previous iteration: the lines the control loop
read, and whether the external consumer cleared `new_data_available`. -/
structure Interleaving where
  commands : List Command
  consumer_cleared : Bool
deriving DecidableEq, Repr

/-! ## Linear algebra and quaternions -/

section Algebra

variable {K : Type} [LinearOrderedField K]

/-- Matrix transpose, `rotation.t()`. -/
def Mat3.t (m : Mat3 K) : Mat3 K :=
  ⟨m.m00, m.m10, m.m20, m.m01, m.m11, m.m21, m.m02, m.m12, m.m22⟩

/-- Entrywise negation of a matrix. -/
def Mat3.neg (m : Mat3 K) : Mat3 K :=
  ⟨-m.m00, -m.m01, -m.m02, -m.m10, -m.m11, -m.m12, -m.m20, -m.m21, -m.m22⟩

/-- Matrix times column vector. -/
def Mat3.mulVec (m : Mat3 K) (v : Vec3 K) : Vec3 K :=
  ⟨m.m00 * v.x + m.m01 * v.y + m.m02 * v.z,
   m.m10 * v.x + m.m11 * v.y + m.m12 * v.z,
   m.m20 * v.x + m.m21 * v.y + m.m22 * v.z⟩

/-- Quaternion length, `glm::length`, with the square root supplied. -/
def Quat.length (sqrt : K → K) (q : Quat K) : K :=
  sqrt (q.x * q.x + q.y * q.y + q.z * q.z + q.w * q.w)

/-- The function `glm::normalize` on quaternions. -/
def Quat.normalize (sqrt : K → K) (q : Quat K) : Quat K :=
  let len := q.length sqrt
  if len ≤ 0 then ⟨1, 0, 0, 0⟩
  else
    let oneOverLen := 1 / len
    ⟨q.w * oneOverLen, q.x * oneOverLen, q.y * oneOverLen, q.z * oneOverLen⟩

/-- The function `glm::angleAxis(angle, v)`. -/
def angleAxis (sin cos : K → K) (angle : K) (v : Vec3 K) : Quat K :=
  let s := sin (angle * (1 / 2))
  ⟨cos (angle * (1 / 2)), v.x * s, v.y * s, v.z * s⟩

/-- Quaternion product `p * q` of glm (the Hamilton product). -/
def Quat.mul (p q : Quat K) : Quat K :=
  ⟨p.w * q.w - p.x * q.x - p.y * q.y - p.z * q.z,
   p.w * q.x + p.x * q.w + p.y * q.z - p.z * q.y,
   p.w * q.y + p.y * q.w + p.z * q.x - p.x * q.z,
   p.w * q.z + p.z * q.w + p.x * q.y - p.y * q.x⟩

end Algebra

/-! ## The tracking loop -/

section Loop

variable {K : Type} [LinearOrderedField K]

/-- The constant `predefined_center`. -/
def predefined_center : Vec3 K := ⟨0, 1.75, 0⟩

/-- Line 157: the image points of a detected marker, re-projected from its own pose. -/
def imagePointsOf (env : Collaborators K) (cam : Intrinsics K) (marker : Marker K) :
    List (Point2f K) :=
  env.projectPoints marker.points3D marker.Rvec marker.Tvec
    cam.camera_matrix cam.distance_coefficients

/-- Lines 158–165: the inner loop over the marker map. The first entry with the marker's
id appends the image points and its own points to the two lists, then the loop breaks. -/
def matchMarker (id : Int) (current_marker_image_points : List (Point2f K)) :
    List (Marker3DInfo K) → List (Point2f K) × List (Point3f K) →
    List (Point2f K) × List (Point3f K)
  | [], acc => acc
  | mapped_marker :: rest, acc =>
    if id = mapped_marker.id then
      (acc.1 ++ current_marker_image_points, acc.2 ++ mapped_marker.points)
    else matchMarker id current_marker_image_points rest acc

/-- Lines 153–166: the outer loop over the detected markers. -/
def matchLoop (env : Collaborators K) (cam : Intrinsics K)
    (marker_map : List (Marker3DInfo K)) :
    List (Marker K) → List (Point2f K) × List (Point3f K) →
    List (Point2f K) × List (Point3f K)
  | [], acc => acc
  | marker :: rest, acc =>
    matchLoop env cam marker_map rest
      (matchMarker marker.id (imagePointsOf env cam marker) marker_map acc)

/-- Lines 150–166: `markers_image_points` and `markers_real_points` for a frame. -/
def correspondences (env : Collaborators K) (cam : Intrinsics K)
    (marker_map : List (Marker3DInfo K)) (markers : List (Marker K)) :
    List (Point2f K) × List (Point3f K) :=
  matchLoop env cam marker_map markers ([], [])

/-- Lines 172–175: `position`, the inverted translation `-(rotation.t()) * tvec`. -/
def invertedPosition (env : Collaborators K) (rvec tvec : Vec3 K) : Vec3 K :=
  (env.Rodrigues rvec).t.neg.mulVec tvec

/-- Line 178: `theta`, the magnitude of the rotation vector. -/
def rotationAngle (env : Collaborators K) (v_rvec : Vec3 K) : K :=
  env.sqrt (v_rvec.x * v_rvec.x + v_rvec.y * v_rvec.y + v_rvec.z * v_rvec.z)

/-- Lines 177–183: the rotation vector turned into the quaternion that is published. The
quotients are the field's; for `theta = 0` the C++ `float` quotients are not numbers, and
no statement below depends on their value in that case. -/
def orientationQuat (env : Collaborators K) (v_rvec : Vec3 K) : Quat K :=
  let theta := rotationAngle env v_rvec
  let axis : Vec3 K := ⟨v_rvec.x / theta, v_rvec.y / theta, v_rvec.z / theta⟩
  let quat := (Quat.normalize env.sqrt ⟨0, 1, 0, 0⟩).mul (angleAxis env.sin env.cos theta axis)
  ⟨-quat.w, quat.x, quat.y, quat.z⟩

/-- Lines 185–190: the re-centering offset after a pending centre request is serviced. -/
def servicedOffset (set_centre : Bool) (centre_offset position : Vec3 K) : Vec3 K :=
  if set_centre then ⟨-position.x, -position.y, -position.z⟩ else centre_offset

/-- Lines 192–195: `hmd_position_ig`. -/
def hmdPosition (position centre_offset : Vec3 K) : Vec3 K :=
  ⟨position.x + (predefined_center : Vec3 K).x + centre_offset.x,
   position.y + (predefined_center : Vec3 K).y + centre_offset.y,
   position.z + (predefined_center : Vec3 K).z + centre_offset.z⟩

/-- Lines 197–206: the stores of the publish block, in program order. -/
def publishWrites (hmd_position_ig : Vec3 K) (quat : Quat K) : List (Write K) :=
  [ .position 0 hmd_position_ig.x,
    .position 1 hmd_position_ig.y,
    .position 2 hmd_position_ig.z,
    .quaternion 0 quat.x,
    .quaternion 1 quat.y,
    .quaternion 2 quat.z,
    .quaternion 3 quat.w,
    .new_data true ]

/-- Lines 134–142: a pending calibration request replaces the marker map. -/
def serviceCalibration (s : TrackerState K) (f : FrameInput K) : TrackerState K :=
  if s.wants_calibration then
    { s with marker_map := f.room_setup, wants_calibration := false }
  else s

/-- Lines 211–216: the frame counter. -/
def countFrame (fps : Int) (second_elapsed : Bool) : Int :=
  if second_elapsed then 0 else fps + 1

/-- Lines 168–207: pose solve and publish for a non-empty correspondence set. Returns the
state after the block and the stores it performed. -/
def solveAndPublish (env : Collaborators K) (cam : Intrinsics K) (s : TrackerState K)
    (markers_image_points : List (Point2f K)) (markers_real_points : List (Point3f K)) :
    TrackerState K × List (Write K) :=
  let sol := env.solvePnPRansac markers_real_points markers_image_points
    cam.camera_matrix cam.distance_coefficients s.has_ransac
  let rvec := sol.1
  let tvec := sol.2
  let position := invertedPosition env rvec tvec
  let quat := orientationQuat env rvec
  let centre_offset := servicedOffset s.set_centre s.centre_offset position
  let set_centre := if s.set_centre then false else s.set_centre
  let writes := publishWrites (hmdPosition position centre_offset) quat
  ({ s with has_ransac := true, centre_offset := centre_offset, set_centre := set_centre,
            dp := applyWrites s.dp writes }, writes)

/-- Lines 134–217: one iteration of the `while (!exit_requested)` loop body. Returns the
state after the iteration and the stores to the data packet, in program order. -/
def loopBody (env : Collaborators K) (cam : Intrinsics K) (s : TrackerState K)
    (f : FrameInput K) : TrackerState K × List (Write K) :=
  let s1 := serviceCalibration s f
  if s1.dp.new_data_available then (s1, [])
  else
    let c := correspondences env cam s1.marker_map f.markers
    let r := if c.1.length > 0 then solveAndPublish env cam s1 c.1 c.2 else (s1, [])
    ({ r.1 with fps := countFrame r.1.fps f.second_elapsed }, r.2)

/-- Lines 222–237: the control loop handling its input lines; it stops reading once
`exit_requested` is set. -/
def controlLoop (s : TrackerState K) : List Command → TrackerState K
  | [] => s
  | input :: rest =>
    if s.exit_requested then s
    else
      match input with
      | .exit => controlLoop { s with exit_requested := true } rest
      | .centre => controlLoop { s with set_centre := true } rest
      | .calibrate => controlLoop { s with wants_calibration := true } rest
      | .invalid => controlLoop s rest

/-- The consumer's acknowledgement: it clears `new_data_available` and nothing else. -/
def consumerStep (s : TrackerState K) (consumer_cleared : Bool) : TrackerState K :=
  if consumer_cleared then { s with dp := { s.dp with new_data_available := false } } else s

/-- Line 170 as reached from the top of an iteration: the solver output `(rvec, tvec)` for
the frame, on the correspondences built against the marker map in force. -/
def framePose (env : Collaborators K) (cam : Intrinsics K) (s : TrackerState K)
    (f : FrameInput K) : Vec3 K × Vec3 K :=
  let s1 := serviceCalibration s f
  let c := correspondences env cam s1.marker_map f.markers
  env.solvePnPRansac c.2 c.1 cam.camera_matrix cam.distance_coefficients s1.has_ransac

/-- Lines 172–175 as reached from the top of an iteration: the pre-offset `position`. -/
def framePosition (env : Collaborators K) (cam : Intrinsics K) (s : TrackerState K)
    (f : FrameInput K) : Vec3 K :=
  invertedPosition env (framePose env cam s f).1 (framePose env cam s f).2

/-- The loop run over a finite sequence of frames, the other parties acting between
iterations, stopping when `exit_requested` is seen at the top of an iteration. Returns
the final state and all stores the tracking loop performed. -/
def runLoop (env : Collaborators K) (cam : Intrinsics K) :
    TrackerState K → List (Interleaving × FrameInput K) → TrackerState K × List (Write K)
  | s, [] => (s, [])
  | s, (i, f) :: fs =>
    let s0 := consumerStep (controlLoop s i.commands) i.consumer_cleared
    if s0.exit_requested then (s0, [])
    else
      let r := loopBody env cam s0 f
      let r2 := runLoop env cam r.1 fs
      (r2.1, r.2 ++ r2.2)

end Loop

/-! ## The calibration loader -/

section Calibration

variable {K : Type} [LinearOrderedField K] {S : Type}

/-- The two extraction operators of `std::ifstream` that `loadCalibration` calls, on a
stream state of type `S`: `instream >> v` into a `uint16_t` and into a `double`, each
given the value the variable holds before the extraction and returning the value it holds
afterwards together with the new stream state. -/
structure Extraction (S K : Type) where
  readU16 : S → Nat → Nat × S
  readDouble : S → K → K × S

/-- The indeterminate values the function starts from: the uninitialised `rows` and `cols`
and the uninitialised buffer that `cv::Mat(size, type)` allocates. -/
structure Indeterminate (K : Type) where
  rows : Nat
  cols : Nat
  buffer : Nat → K

/-- The constructor `cv::Mat(cv::Size(width, height), CV_64F)`: `height` rows of `width`
columns, contents not initialised. -/
def Mat.create (width height : Nat) (buffer : Nat → K) : Mat K :=
  ⟨height, width, (List.range (height * width)).map buffer⟩

/-- The function `cv::Mat::zeros(cv::Size(width, height), CV_64F)`. -/
def Mat.zeros (width height : Nat) : Mat K :=
  ⟨height, width, List.replicate (height * width) 0⟩

/-- The store `m.at<double>(r, c) = v` of a release build: it addresses element
`r * m.cols + c` of the buffer with no check of `r` and `c` against the shape. A store
past the end of the buffer has no defined behaviour and gives `none`. -/
def Mat.setAt (m : Mat K) (r c : Nat) (v : K) : Option (Mat K) :=
  if r * m.cols + c < m.data.length then
    some { m with data := m.data.set (r * m.cols + c) v }
  else none

/-- The load `m.at<double>(r, c)` of an element inside the shape. -/
def Mat.at (m : Mat K) (r c : Nat) : Option K :=
  if r < m.rows ∧ c < m.cols then m.data[r * m.cols + c]? else none

/-- Lines 40–45 and 55–60: the inner loop over the columns `c` still to do of row `r`. -/
def readRow (ops : Extraction S K) (r : Nat) : List Nat → S × Mat K → Option (S × Mat K)
  | [], acc => some acc
  | c :: cs, acc =>
    let read := ops.readDouble acc.1 0
    match acc.2.setAt r c read.1 with
    | some m => readRow ops r cs (read.2, m)
    | none => none

/-- Lines 38–46 and 53–61: the outer loop over the rows `r` still to do. -/
def readRows (ops : Extraction S K) (cols : Nat) : List Nat → S × Mat K → Option (S × Mat K)
  | [], acc => some acc
  | r :: rs, acc =>
    match readRow ops r (List.range cols) acc with
    | some acc2 => readRows ops cols rs acc2
    | none => none

/-- Lines 38–46 and 53–61: the two nested loops reading `rows * cols` values. -/
def readValues (ops : Extraction S K) (rows cols : Nat) (st : S) (m : Mat K) :
    Option (S × Mat K) :=
  readRows ops cols (List.range rows) (st, m)

/-- Lines 28–66: `loadCalibration`. The file is `none` when it cannot be opened, else the
state of the freshly opened stream. Returns the boolean result and the two output
matrices, or `none` when a store falls outside a matrix buffer. -/
def loadCalibration (ops : Extraction S K) (ind : Indeterminate K) (file : Option S)
    (camera_matrix distance_coefficients : Mat K) : Option (Bool × Mat K × Mat K) :=
  match file with
  | some instream =>
    let rows := ops.readU16 instream ind.rows
    let cols := ops.readU16 rows.2 ind.cols
    let camera_matrix := Mat.create rows.1 cols.1 ind.buffer
    match readValues ops rows.1 cols.1 cols.2 camera_matrix with
    | none => none
    | some block1 =>
      let rows2 := ops.readU16 block1.1 rows.1
      let cols2 := ops.readU16 rows2.2 cols.1
      let distance_coefficients : Mat K := Mat.zeros cols2.1 rows2.1
      match readValues ops rows2.1 cols2.1 cols2.2 distance_coefficients with
      | none => none
      | some block2 => some (true, block1.2, block2.2)
  | none => some (false, camera_matrix, distance_coefficients)

/-- Lines 94–98: startup aborts (`return -1`) exactly when `loadCalibration` returns
false. -/
def startupAborts (ops : Extraction S K) (ind : Indeterminate K) (file : Option S) :
    Option Bool :=
  (loadCalibration ops ind file ⟨0, 0, []⟩ ⟨0, 0, []⟩).map (fun res => !res.1)

/-- The `rows` and `cols` that lines 33–34 read from a freshly opened stream. -/
def firstHeader (ops : Extraction S K) (ind : Indeterminate K) (instream : S) : Nat × Nat :=
  ((ops.readU16 instream ind.rows).1,
   (ops.readU16 (ops.readU16 instream ind.rows).2 ind.cols).1)

/-- Re-serialisation in the file layout: `rows cols` followed by the entries `(r, c)` in
row-major order, read through `Mat.at`. -/
def serialise (m : Mat K) : List (Option K) :=
  [some (m.rows : K), some (m.cols : K)] ++
    (List.range m.rows).flatMap (fun r => (List.range m.cols).map (fun c => m.at r c))

/-- The state of a `std::ifstream` over a file that consists of unsigned decimal integer
literals separated by whitespace: the literals still to be read and the fail bit. -/
structure IfStream where
  tokens : List Nat
  fail : Bool
deriving DecidableEq, Repr

/-- The extraction `instream >> v` into a `uint16_t` holding `old`, on such a file. On a
failed stream and at the end of the file nothing is stored (at the end of the file the
fail bit is set); a literal that fits is stored; one that does not fit stores 65535 and
sets the fail bit. -/
def IfStream.readU16 (st : IfStream) (old : Nat) : Nat × IfStream :=
  if st.fail then (old, st)
  else
    match st.tokens with
    | [] => (old, { st with fail := true })
    | n :: rest => if n ≤ 65535 then (n, ⟨rest, false⟩) else (65535, ⟨rest, true⟩)

/-- The extraction `instream >> read` into a `double` holding `old`, on such a file. On a
failed stream and at the end of the file nothing is stored (at the end of the file the
fail bit is set); otherwise the value of the literal is stored. -/
def IfStream.readDouble (st : IfStream) (old : K) : K × IfStream :=
  if st.fail then (old, st)
  else
    match st.tokens with
    | [] => (old, { st with fail := true })
    | n :: rest => ((n : K), ⟨rest, false⟩)

/-- The extraction operators on files of unsigned integer literals. -/
def literalStream : Extraction IfStream K := ⟨IfStream.readU16, IfStream.readDouble⟩

/-- A file of unsigned integer literals that could be opened, with its content. -/
def openedFile (content : List Nat) : Option IfStream := some ⟨content, false⟩

end Calibration

/-! ## Vocabulary for stating the correspondence property -/

section Vocabulary

variable {K : Type}

/-- Whether some entry of the marker map carries the id. -/
def inMap (marker_map : List (Marker3DInfo K)) (id : Int) : Bool :=
  marker_map.any (fun e => decide (id = e.id))

/-- The points of the first map entry carrying the id, empty if there is none. -/
def mapPoints (marker_map : List (Marker3DInfo K)) (id : Int) : List (Point3f K) :=
  match marker_map.find? (fun e => decide (id = e.id)) with
  | some e => e.points
  | none => []

/-- The detections whose id is in the marker map, in detection order. -/
def matchedMarkers (marker_map : List (Marker3DInfo K)) (markers : List (Marker K)) :
    List (Marker K) :=
  markers.filter (fun m => inMap marker_map m.id)

/-- The file layout in the words of the specification, for a file of unsigned integer
literals: a header `rows cols` followed by at least `rows * cols` values, then a second
header `rows cols` followed by at least `rows * cols` values. -/
def matchesLayout (content : List Nat) : Bool :=
  match content with
  | rows :: cols :: rest =>
    decide (rows * cols ≤ rest.length) &&
    (match rest.drop (rows * cols) with
     | rows2 :: cols2 :: rest2 => decide (rows2 * cols2 ≤ rest2.length)
     | _ => false)
  | _ => false

end Vocabulary

/-! ## Concrete collaborators used to evaluate the definitions -/

/-- A solver stub over `ℚ`: rotation vector `(3, 0, 0)`, translation `(1, 2, 3)`, identity
rotation matrix, and projection of each 3D point to its `x, y` components. -/
def demoEnv : Collaborators ℚ where
  sqrt := fun x => if x = 9 then 3 else if x = 1 then 1 else 0
  sin := fun _ => 0
  cos := fun _ => 1
  projectPoints := fun pts _ _ _ _ => pts.map (fun p => ⟨p.x, p.y⟩)
  solvePnPRansac := fun _ _ _ _ _ => (⟨3, 0, 0⟩, ⟨1, 2, 3⟩)
  Rodrigues := fun _ => ⟨1, 0, 0, 0, 1, 0, 0, 0, 1⟩

/-- A solver stub over `ℚ` that returns the zero rotation vector. -/
def zeroRotationEnv : Collaborators ℚ :=
  { demoEnv with solvePnPRansac := fun _ _ _ _ _ => (⟨0, 0, 0⟩, ⟨1, 2, 3⟩) }

/-- Empty intrinsics for the stubs, which ignore them. -/
def demoCam : Intrinsics ℚ := ⟨⟨0, 0, []⟩, ⟨0, 0, []⟩⟩

/-- The four corners of a unit square in the plane `z = 0`. -/
def unitSquare : List (Point3f ℚ) := [⟨0, 0, 0⟩, ⟨1, 0, 0⟩, ⟨1, 1, 0⟩, ⟨0, 1, 0⟩]

/-- A detected marker with the given id. -/
def demoMarker (id : Int) : Marker ℚ := ⟨id, unitSquare, ⟨0, 0, 0⟩, ⟨0, 0, 1⟩⟩

/-- The state at loop entry (line 133) with an empty packet and the given marker map. -/
def initialState (marker_map : List (Marker3DInfo ℚ)) : TrackerState ℚ where
  set_centre := false
  exit_requested := false
  wants_calibration := false
  has_ransac := false
  centre_offset := ⟨0, 0, 0⟩
  marker_map := marker_map
  dp := ⟨⟨0, 0, 0⟩, ⟨0, 0, 0, 0⟩, false⟩
  fps := 0

/-- The initial state with marker 1 mapped and a centre request pending. -/
def centreState : TrackerState ℚ :=
  { initialState [⟨1, unitSquare⟩] with set_centre := true }

/-- A frame in which marker 1 is detected. -/
def demoFrame : FrameInput ℚ := ⟨[], [demoMarker 1], false⟩

/-- The state in which the second of two successive centre requests is serviced: after the
first iteration from `centreState`, the consumer clears the flag and the control loop
reads `centre` again. -/
def secondCentreState : TrackerState ℚ :=
  consumerStep (controlLoop (loopBody demoEnv demoCam centreState demoFrame).1 [.centre]) true

/-- Indeterminate values for evaluating the loader: 7 everywhere. -/
def demoIndeterminate : Indeterminate ℚ := ⟨7, 7, fun _ => 7⟩

/-- A file declaring a 3×3 camera matrix but holding only two values and no second
block: `3 3 1 2`. -/
def shortFile : List Nat := [3, 3, 1, 2]

/-- A file declaring a 2×2 camera matrix and holding a single value: `2 2 9`. -/
def shorterFile : List Nat := [2, 2, 9]

/-- A well-formed file declaring a 2×3 camera matrix with values 1..6 and a 1×5
distortion block with values 11..15. -/
def wideFile : List Nat := [2, 3, 1, 2, 3, 4, 5, 6, 1, 5, 11, 12, 13, 14, 15]

/-- A state whose packet holds an unread pose. -/
def readyState : TrackerState ℚ :=
  { initialState [⟨1, unitSquare⟩] with dp := ⟨⟨1, 2, 3⟩, ⟨0, 0, 0, 1⟩, true⟩ }

/-! ## Lemmas on the loop -/

section LoopLemmas

variable {K : Type}

theorem serviceCalibration_dp (s : TrackerState K) (f : FrameInput K) :
    (serviceCalibration s f).dp = s.dp := by
  unfold serviceCalibration; split <;> rfl

theorem controlLoop_dp (s : TrackerState K) (cmds : List Command) :
    (controlLoop s cmds).dp = s.dp := by
  induction cmds generalizing s with
  | nil => rfl
  | cons c rest ih =>
    unfold controlLoop
    split
    · rfl
    · cases c <;> simp [ih]

theorem loopBody_ready [LinearOrderedField K] (env : Collaborators K) (cam : Intrinsics K)
    (s : TrackerState K)
    (f : FrameInput K) (h : s.dp.new_data_available = true) :
    loopBody env cam s f = (serviceCalibration s f, []) := by
  have h1 : (serviceCalibration s f).dp.new_data_available = true := by
    rw [serviceCalibration_dp]; exact h
  simp [loopBody, h1]

theorem matchMarker_absent (id : Int) (img : List (Point2f K))
    (marker_map : List (Marker3DInfo K)) (acc : List (Point2f K) × List (Point3f K))
    (h : ∀ e ∈ marker_map, id ≠ e.id) : matchMarker id img marker_map acc = acc := by
  induction marker_map with
  | nil => rfl
  | cons e rest ih =>
    have he : id ≠ e.id := h e (List.mem_cons_self _ _)
    have hr : ∀ e2 ∈ rest, id ≠ e2.id := fun e2 h2 => h e2 (List.mem_cons_of_mem _ h2)
    simp [matchMarker, he, ih hr]

theorem matchLoop_absent (env : Collaborators K) (cam : Intrinsics K)
    (marker_map : List (Marker3DInfo K)) (markers : List (Marker K))
    (acc : List (Point2f K) × List (Point3f K))
    (h : ∀ m ∈ markers, ∀ e ∈ marker_map, m.id ≠ e.id) :
    matchLoop env cam marker_map markers acc = acc := by
  induction markers generalizing acc with
  | nil => rfl
  | cons m rest ih =>
    have hm := h m (List.mem_cons_self _ _)
    have hr : ∀ m2 ∈ rest, ∀ e ∈ marker_map, m2.id ≠ e.id :=
      fun m2 h2 => h m2 (List.mem_cons_of_mem _ h2)
    simp [matchLoop, matchMarker_absent _ _ _ _ hm, ih _ hr]

theorem matchMarker_eq (id : Int) (img : List (Point2f K))
    (marker_map : List (Marker3DInfo K)) (acc : List (Point2f K) × List (Point3f K)) :
    matchMarker id img marker_map acc =
      if inMap marker_map id then (acc.1 ++ img, acc.2 ++ mapPoints marker_map id)
      else acc := by
  induction marker_map with
  | nil => simp [matchMarker, inMap]
  | cons e rest ih =>
    by_cases he : id = e.id
    · simp [matchMarker, inMap, mapPoints, he]
    · have h1 : inMap (e :: rest) id = inMap rest id := by simp [inMap, he]
      have h2 : mapPoints (e :: rest) id = mapPoints rest id := by
        simp [mapPoints, List.find?_cons, he]
      simp only [matchMarker, he, if_false, h1, h2]
      exact ih

theorem matchLoop_eq (env : Collaborators K) (cam : Intrinsics K)
    (marker_map : List (Marker3DInfo K)) (markers : List (Marker K))
    (acc : List (Point2f K) × List (Point3f K)) :
    matchLoop env cam marker_map markers acc =
      (acc.1 ++ (matchedMarkers marker_map markers).flatMap (imagePointsOf env cam),
       acc.2 ++ (matchedMarkers marker_map markers).flatMap
          (fun m => mapPoints marker_map m.id)) := by
  induction markers generalizing acc with
  | nil => simp [matchLoop, matchedMarkers]
  | cons m rest ih =>
    rw [matchLoop, ih, matchMarker_eq]
    by_cases hm : inMap marker_map m.id = true
    · simp [matchedMarkers, List.filter_cons, hm, List.flatMap_cons, List.append_assoc]
    · simp [matchedMarkers, List.filter_cons, hm]

theorem mapPoints_of_mem (marker_map : List (Marker3DInfo K))
    (hu : (marker_map.map (fun e => e.id)).Nodup) (e : Marker3DInfo K)
    (he : e ∈ marker_map) : mapPoints marker_map e.id = e.points := by
  induction marker_map with
  | nil => cases he
  | cons a rest ih =>
    rw [List.map_cons, List.nodup_cons] at hu
    rcases List.mem_cons.1 he with h | h
    · subst h; simp [mapPoints]
    · have hne : e.id ≠ a.id := by
        intro heq
        exact hu.1 (heq ▸ List.mem_map_of_mem (fun e => e.id) h)
      have : mapPoints (a :: rest) e.id = mapPoints rest e.id := by
        simp [mapPoints, List.find?_cons, hne]
      rw [this]; exact ih hu.2 h

theorem getElem?_flatMap_block {α β : Type} (f : α → List β) (n : Nat) (l : List α)
    (h : ∀ x ∈ l, (f x).length = n) (j k : Nat) (hk : k < n) (x : α)
    (hx : l[j]? = some x) : (l.flatMap f)[n * j + k]? = (f x)[k]? := by
  induction l generalizing j with
  | nil => simp at hx
  | cons a t ih =>
    have ha : (f a).length = n := h a (List.mem_cons_self _ _)
    have ht : ∀ y ∈ t, (f y).length = n := fun y hy => h y (List.mem_cons_of_mem _ hy)
    rw [List.flatMap_cons]
    cases j with
    | zero =>
      simp at hx; subst hx
      rw [Nat.mul_zero, Nat.zero_add, List.getElem?_append_left (by omega)]
    | succ j =>
      simp at hx
      rw [List.getElem?_append_right (by rw [ha, Nat.mul_succ]; omega)]
      have : n * (j + 1) + k - (f a).length = n * j + k := by
        rw [ha, Nat.mul_succ]; omega
      rw [this]
      exact ih ht j hx

theorem length_flatMap_block {α β : Type} (f : α → List β) (n : Nat) (l : List α)
    (h : ∀ x ∈ l, (f x).length = n) : (l.flatMap f).length = n * l.length := by
  induction l with
  | nil => simp
  | cons a t ih =>
    have ha : (f a).length = n := h a (List.mem_cons_self _ _)
    have ht : ∀ y ∈ t, (f y).length = n := fun y hy => h y (List.mem_cons_of_mem _ hy)
    rw [List.flatMap_cons, List.length_append, ih ht, ha, List.length_cons, Nat.mul_succ]
    omega

theorem inMap_iff (marker_map : List (Marker3DInfo K)) (id : Int) :
    inMap marker_map id = true ↔ ∃ e ∈ marker_map, e.id = id := by
  simp only [inMap, List.any_eq_true, decide_eq_true_eq]
  constructor
  · rintro ⟨e, he, h⟩; exact ⟨e, he, h.symm⟩
  · rintro ⟨e, he, h⟩; exact ⟨e, he, h.symm⟩

theorem loopBody_skip [LinearOrderedField K] (env : Collaborators K) (cam : Intrinsics K)
    (s : TrackerState K) (f : FrameInput K) (hflag : s.dp.new_data_available = false)
    (hc : (correspondences env cam (serviceCalibration s f).marker_map f.markers).1.length
      = 0) :
    loopBody env cam s f =
      ({ serviceCalibration s f with
          fps := countFrame (serviceCalibration s f).fps f.second_elapsed }, []) := by
  have h1 : (serviceCalibration s f).dp.new_data_available = false := by
    rw [serviceCalibration_dp]; exact hflag
  simp [loopBody, h1, hc]

theorem loopBody_publish [LinearOrderedField K] (env : Collaborators K) (cam : Intrinsics K)
    (s : TrackerState K) (f : FrameInput K) (hflag : s.dp.new_data_available = false)
    (hc : 0 < (correspondences env cam (serviceCalibration s f).marker_map f.markers).1.length) :
    loopBody env cam s f =
      ({ serviceCalibration s f with
          has_ransac := true
          centre_offset := servicedOffset (serviceCalibration s f).set_centre
            (serviceCalibration s f).centre_offset (framePosition env cam s f)
          set_centre := false
          dp := applyWrites s.dp (publishWrites
            (hmdPosition (framePosition env cam s f)
              (servicedOffset (serviceCalibration s f).set_centre
                (serviceCalibration s f).centre_offset (framePosition env cam s f)))
            (orientationQuat env (framePose env cam s f).1))
          fps := countFrame (serviceCalibration s f).fps f.second_elapsed },
       publishWrites
          (hmdPosition (framePosition env cam s f)
            (servicedOffset (serviceCalibration s f).set_centre
              (serviceCalibration s f).centre_offset (framePosition env cam s f)))
          (orientationQuat env (framePose env cam s f).1)) := by
  have h1 : (serviceCalibration s f).dp.new_data_available = false := by
    rw [serviceCalibration_dp]; exact hflag
  have h2 : (serviceCalibration s f).dp = s.dp := serviceCalibration_dp s f
  simp only [loopBody, h1, hc, solveAndPublish, framePosition, framePose]
  simp [h2]

theorem serviceCalibration_fields (s : TrackerState K) (f : FrameInput K) :
    (serviceCalibration s f).set_centre = s.set_centre ∧
    (serviceCalibration s f).centre_offset = s.centre_offset ∧
    (serviceCalibration s f).has_ransac = s.has_ransac ∧
    (serviceCalibration s f).exit_requested = s.exit_requested := by
  unfold serviceCalibration; split <;> exact ⟨rfl, rfl, rfl, rfl⟩

theorem applyWrites_publish (dp : DataPacket K) (p : Vec3 K) (q : Quat K) :
    applyWrites dp (publishWrites p q) = ⟨p, ⟨q.w, q.x, q.y, q.z⟩, true⟩ := by
  simp [applyWrites, publishWrites, applyWrite, Point3f.set, Quat.set]

end LoopLemmas

/-! ## Lemmas on the calibration loader -/

section CalibrationLemmas

variable {K : Type} {S : Type}

theorem readRow_defined [LinearOrderedField K] (ops : Extraction S K) (r : Nat) (cs : List Nat) (acc : S × Mat K)
    (h : ∀ c ∈ cs, r * acc.2.cols + c < acc.2.data.length) :
    ∃ acc2, readRow ops r cs acc = some acc2 ∧ acc2.2.cols = acc.2.cols ∧
      acc2.2.data.length = acc.2.data.length := by
  induction cs generalizing acc with
  | nil => exact ⟨acc, rfl, rfl, rfl⟩
  | cons c cs ih =>
    have hc := h c (List.mem_cons_self _ _)
    have hrest : ∀ c2 ∈ cs, r * acc.2.cols + c2 < acc.2.data.length :=
      fun c2 h2 => h c2 (List.mem_cons_of_mem _ h2)
    simp only [readRow, Mat.setAt, hc, if_true]
    obtain ⟨acc2, h1, h2, h3⟩ := ih
      ((ops.readDouble acc.1 0).2,
        { acc.2 with data := acc.2.data.set (r * acc.2.cols + c) (ops.readDouble acc.1 0).1 })
      (by simpa using hrest)
    exact ⟨acc2, h1, by simpa using h2, by simpa using h3⟩

theorem readRows_defined [LinearOrderedField K] (ops : Extraction S K) (cols : Nat) (rs : List Nat)
    (acc : S × Mat K)
    (h : ∀ r ∈ rs, ∀ c, c < cols → r * acc.2.cols + c < acc.2.data.length) :
    ∃ acc2, readRows ops cols rs acc = some acc2 ∧ acc2.2.cols = acc.2.cols ∧
      acc2.2.data.length = acc.2.data.length := by
  induction rs generalizing acc with
  | nil => exact ⟨acc, rfl, rfl, rfl⟩
  | cons r rs ih =>
    have hr := h r (List.mem_cons_self _ _)
    obtain ⟨acc1, h1, h2, h3⟩ := readRow_defined ops r (List.range cols) acc
      (fun c hc => hr c (List.mem_range.1 hc))
    obtain ⟨acc2, k1, k2, k3⟩ := ih acc1 (by
      intro r2 hr2 c hc
      rw [h2, h3]
      exact h r2 (List.mem_cons_of_mem _ hr2) c hc)
    refine ⟨acc2, ?_, k2.trans h2, k3.trans h3⟩
    simp only [readRows, h1]
    exact k1

theorem readValues_defined [LinearOrderedField K] (ops : Extraction S K) (rows cols : Nat) (st : S) (m : Mat K)
    (h : ∀ r, r < rows → ∀ c, c < cols → r * m.cols + c < m.data.length) :
    ∃ res, readValues ops rows cols st m = some res := by
  obtain ⟨acc2, h1, _, _⟩ := readRows_defined ops cols (List.range rows) (st, m)
    (fun r hr c hc => h r (List.mem_range.1 hr) c hc)
  exact ⟨acc2, h1⟩

theorem zeros_in_bounds [LinearOrderedField K] (rows cols r c : Nat) (hr : r < rows) (hc : c < cols) :
    r * (Mat.zeros cols rows : Mat K).cols + c < (Mat.zeros cols rows : Mat K).data.length := by
  simp only [Mat.zeros, List.length_replicate]
  calc r * cols + c < r * cols + cols := by omega
    _ = (r + 1) * cols := by ring
    _ ≤ rows * cols := Nat.mul_le_mul_right _ hr

theorem create_in_bounds (buffer : Nat → K) (rows cols r c : Nat)
    (hshape : ¬ (1 ≤ cols ∧ cols < rows)) (hr : r < rows) (hc : c < cols) :
    r * (Mat.create rows cols buffer).cols + c < (Mat.create rows cols buffer).data.length := by
  simp only [Mat.create, List.length_map, List.length_range]
  have hle : rows ≤ cols := by omega
  obtain ⟨d, rfl⟩ := Nat.exists_eq_add_of_le hle
  obtain ⟨e, rfl⟩ := Nat.exists_eq_add_of_lt hr
  nlinarith [Nat.zero_le (d * r), Nat.zero_le (d * e), Nat.zero_le (e * r), Nat.zero_le (r * r)]

end CalibrationLemmas

/-! ## The claims -/

section Claims

variable {K : Type}

/-- C2. Correspondence matching: for a marker map with unique ids and four points per
entry, and detections with four image points each, the matching loop builds a 2D list
and a 3D list of equal length, four times the number of detections whose id is in the
map; the pair at position `4 * j + k` (`k < 4`) is corner `k` of the `j`-th matched
detection together with point `k` of the map entry carrying that detection's id; and the
detections whose id is absent from the map contribute nothing: the lists are exactly those
built from the matched detections alone, every 2D entry is an image point of a detection
whose id is in the map, and every 3D entry is a point of a map entry whose id was
detected. -/
theorem correspondence_matching (env : Collaborators K) (cam : Intrinsics K)
    (marker_map : List (Marker3DInfo K)) (markers : List (Marker K))
    (hunique : (marker_map.map (fun e => e.id)).Nodup)
    (hmap : ∀ e ∈ marker_map, e.points.length = 4)
    (hdet : ∀ m ∈ markers, (imagePointsOf env cam m).length = 4) :
    (correspondences env cam marker_map markers).1.length
      = (correspondences env cam marker_map markers).2.length ∧
    (correspondences env cam marker_map markers).1.length
      = 4 * (matchedMarkers marker_map markers).length ∧
    (∀ (j k : Nat) (m : Marker K) (e : Marker3DInfo K),
      (matchedMarkers marker_map markers)[j]? = some m → e ∈ marker_map → e.id = m.id →
      k < 4 →
      ∃ p q, (imagePointsOf env cam m)[k]? = some p ∧ e.points[k]? = some q ∧
        (correspondences env cam marker_map markers).1[4 * j + k]? = some p ∧
        (correspondences env cam marker_map markers).2[4 * j + k]? = some q) ∧
    correspondences env cam marker_map markers
      = correspondences env cam marker_map (matchedMarkers marker_map markers) ∧
    (∀ p ∈ (correspondences env cam marker_map markers).1,
      ∃ m ∈ markers, (∃ e ∈ marker_map, e.id = m.id) ∧ p ∈ imagePointsOf env cam m) ∧
    (∀ q ∈ (correspondences env cam marker_map markers).2,
      ∃ e ∈ marker_map, (∃ m ∈ markers, m.id = e.id) ∧ q ∈ e.points) := by
  have hsub : ∀ m ∈ matchedMarkers marker_map markers, m ∈ markers ∧
      inMap marker_map m.id = true := by
    intro m hm
    simpa [matchedMarkers, List.mem_filter] using hm
  have himg : ∀ m ∈ matchedMarkers marker_map markers,
      (imagePointsOf env cam m).length = 4 := fun m hm => hdet m (hsub m hm).1
  have hreal : ∀ m ∈ matchedMarkers marker_map markers,
      (mapPoints marker_map m.id).length = 4 := by
    intro m hm
    obtain ⟨e, he, hid⟩ := (inMap_iff marker_map m.id).1 (hsub m hm).2
    rw [← hid, mapPoints_of_mem marker_map hunique e he]
    exact hmap e he
  have hc : correspondences env cam marker_map markers =
      ((matchedMarkers marker_map markers).flatMap (imagePointsOf env cam),
       (matchedMarkers marker_map markers).flatMap (fun m => mapPoints marker_map m.id)) := by
    simp [correspondences, matchLoop_eq]
  have hidem : matchedMarkers marker_map (matchedMarkers marker_map markers)
      = matchedMarkers marker_map markers := by
    simp [matchedMarkers, List.filter_filter]
  refine ⟨?_, ?_, ?_, ?_, ?_, ?_⟩
  · rw [hc]
    simp only
    rw [length_flatMap_block _ 4 _ himg, length_flatMap_block _ 4 _ hreal]
  · rw [hc]
    simp only
    rw [length_flatMap_block _ 4 _ himg]
  · intro j k m e hj he hid hk
    have hmm : m ∈ matchedMarkers marker_map markers := List.getElem?_mem hj
    have hp : k < (imagePointsOf env cam m).length := by rw [himg m hmm]; exact hk
    have hq : k < e.points.length := by rw [hmap e he]; exact hk
    refine ⟨(imagePointsOf env cam m)[k], e.points[k], List.getElem?_eq_getElem hp,
      List.getElem?_eq_getElem hq, ?_, ?_⟩
    · rw [hc]
      simp only
      rw [getElem?_flatMap_block _ 4 _ himg j k hk m hj, List.getElem?_eq_getElem hp]
    · rw [hc]
      simp only
      rw [getElem?_flatMap_block _ 4 _ hreal j k hk m hj, ← hid,
        mapPoints_of_mem marker_map hunique e he, List.getElem?_eq_getElem hq]
  · rw [hc]
    simp [correspondences, matchLoop_eq, hidem]
  · intro p hp
    rw [hc] at hp
    obtain ⟨m, hm, hpm⟩ := List.mem_flatMap.1 hp
    exact ⟨m, (hsub m hm).1, (inMap_iff marker_map m.id).1 (hsub m hm).2, hpm⟩
  · intro q hq
    rw [hc] at hq
    obtain ⟨m, hm, hqm⟩ := List.mem_flatMap.1 hq
    obtain ⟨e, he, hid⟩ := (inMap_iff marker_map m.id).1 (hsub m hm).2
    refine ⟨e, he, ⟨m, (hsub m hm).1, hid.symm⟩, ?_⟩
    have hpts : mapPoints marker_map m.id = e.points := by
      rw [← hid, mapPoints_of_mem marker_map hunique e he]
    simpa [hpts] using hqm

/-- C1. Backpressure: in a state whose `new_data_available` flag is true, one iteration of
the loop body performs no store and leaves the packet (position, quaternion, flag) as it
was, whatever the detections, marker map and control flags are; and over any sequence of
iterations during which the consumer has not cleared the flag, whatever commands the
control loop receives in between, the tracking loop performs no store at all and the
packet is still the same. -/
theorem backpressure_no_write [LinearOrderedField K] (env : Collaborators K) (cam : Intrinsics K)
    (s : TrackerState K) (h : s.dp.new_data_available = true) :
    (∀ f : FrameInput K,
        (loopBody env cam s f).2 = [] ∧ (loopBody env cam s f).1.dp = s.dp) ∧
    (∀ fs : List (Interleaving × FrameInput K),
        (∀ p ∈ fs, p.1.consumer_cleared = false) →
        (runLoop env cam s fs).2 = [] ∧ (runLoop env cam s fs).1.dp = s.dp) := by
  refine ⟨fun f => ?_, fun fs => ?_⟩
  · rw [loopBody_ready env cam s f h]
    exact ⟨rfl, serviceCalibration_dp s f⟩
  · induction fs generalizing s with
    | nil => intro _; exact ⟨rfl, rfl⟩
    | cons p rest ih =>
      intro hp
      obtain ⟨i, f⟩ := p
      have hi : i.consumer_cleared = false := hp (i, f) (List.mem_cons_self _ _)
      have hrest : ∀ q ∈ rest, q.1.consumer_cleared = false :=
        fun q hq => hp q (List.mem_cons_of_mem _ hq)
      have hs0 : consumerStep (controlLoop s i.commands) i.consumer_cleared
          = controlLoop s i.commands := by simp [consumerStep, hi]
      have hdp : (controlLoop s i.commands).dp = s.dp := controlLoop_dp s _
      have hflag : (controlLoop s i.commands).dp.new_data_available = true := by
        rw [hdp]; exact h
      unfold runLoop
      simp only [hs0]
      split
      · exact ⟨rfl, hdp⟩
      · rw [loopBody_ready env cam _ f hflag]
        have hflag2 : (serviceCalibration (controlLoop s i.commands) f).dp.new_data_available
            = true := by rw [serviceCalibration_dp]; exact hflag
        have := ih (serviceCalibration (controlLoop s i.commands) f) hflag2 hrest
        refine ⟨by simpa using this.1, ?_⟩
        simp only
        rw [this.2, serviceCalibration_dp, hdp]

/-- Witness for C1: the packet of `readyState` holds an unread pose, and three iterations
with markers in view and a pending centre request leave it untouched. -/
theorem backpressure_no_write_witness :
    readyState.dp.new_data_available = true ∧
    (runLoop demoEnv demoCam readyState
        [(⟨[.centre], false⟩, ⟨[], [demoMarker 1], false⟩),
         (⟨[], false⟩, ⟨[], [demoMarker 1], false⟩),
         (⟨[.calibrate], false⟩, ⟨[], [demoMarker 1], true⟩)]).2 = [] ∧
    (runLoop demoEnv demoCam readyState
        [(⟨[.centre], false⟩, ⟨[], [demoMarker 1], false⟩),
         (⟨[], false⟩, ⟨[], [demoMarker 1], false⟩),
         (⟨[.calibrate], false⟩, ⟨[], [demoMarker 1], true⟩)]).1.dp = readyState.dp :=
  ⟨rfl, (backpressure_no_write demoEnv demoCam readyState rfl).2 _ (by decide)⟩

/-- Witness for C2: three detections (ids 1, 7, 2) against a map holding ids 2 and 1; the
map has unique ids and four points per entry, each detection has four image points, and
the 2D list has four entries per matched detection. -/
theorem correspondence_matching_witness :
    (([⟨2, unitSquare⟩, ⟨1, unitSquare⟩] : List (Marker3DInfo ℚ)).map (fun e => e.id)).Nodup ∧
    (correspondences demoEnv demoCam [⟨2, unitSquare⟩, ⟨1, unitSquare⟩]
        [demoMarker 1, demoMarker 7, demoMarker 2]).1.length
      = 4 * (matchedMarkers ([⟨2, unitSquare⟩, ⟨1, unitSquare⟩] : List (Marker3DInfo ℚ))
          [demoMarker 1, demoMarker 7, demoMarker 2]).length :=
  ⟨by decide,
   (correspondence_matching demoEnv demoCam [⟨2, unitSquare⟩, ⟨1, unitSquare⟩]
      [demoMarker 1, demoMarker 7, demoMarker 2] (by decide)
      (by simp [unitSquare]) (by simp [imagePointsOf, demoEnv, demoMarker, unitSquare])).2.1⟩

/-- C3. Publish ordering: let `rvec`, `tvec` be the solver output for this frame's
correspondences, `p` the inverted position computed from them, `c` the re-centering offset
after a pending centre request is serviced with `p`, and `q` the quaternion computed from
`rvec`. An iteration either performs no store and leaves the packet as it was, or performs
exactly, in this order, the three stores of the position `p + (0, 1.75, 0) + c`, the four
stores of `q` (as x, y, z, w) and, last, `new_data_available := true`, so that the packet
then holds the position and orientation of this one update with the flag set; it publishes
exactly when the flag was clear and the correspondence set is non-empty; the packet after
the iteration is the packet before it with the stores applied in order; and no iteration,
and no run of the loop, ever stores `false` into the flag. -/
theorem publish_ordering [LinearOrderedField K] (env : Collaborators K) (cam : Intrinsics K)
    (s : TrackerState K) (f : FrameInput K) (rvec tvec p c : Vec3 K) (q : Quat K)
    (hsol : (rvec, tvec) = env.solvePnPRansac
      (correspondences env cam (serviceCalibration s f).marker_map f.markers).2
      (correspondences env cam (serviceCalibration s f).marker_map f.markers).1
      cam.camera_matrix cam.distance_coefficients s.has_ransac)
    (hp : p = invertedPosition env rvec tvec)
    (hoff : c = servicedOffset s.set_centre s.centre_offset p)
    (hq : q = orientationQuat env rvec) :
    (loopBody env cam s f).1.dp = applyWrites s.dp (loopBody env cam s f).2 ∧
    ((loopBody env cam s f).2 = [] ∨
     (loopBody env cam s f).2 =
       [ .position 0 (p.x + 0 + c.x),
         .position 1 (p.y + 1.75 + c.y),
         .position 2 (p.z + 0 + c.z),
         .quaternion 0 q.x,
         .quaternion 1 q.y,
         .quaternion 2 q.z,
         .quaternion 3 q.w,
         .new_data true ]) ∧
    ((loopBody env cam s f).2 ≠ [] ↔
      (s.dp.new_data_available = false ∧
       0 < (correspondences env cam (serviceCalibration s f).marker_map f.markers).1.length)) ∧
    ((loopBody env cam s f).2 ≠ [] →
      (loopBody env cam s f).1.dp
        = ⟨⟨p.x + 0 + c.x, p.y + 1.75 + c.y, p.z + 0 + c.z⟩, q, true⟩) ∧
    ((loopBody env cam s f).2 = [] → (loopBody env cam s f).1.dp = s.dp) ∧
    Write.new_data false ∉ (loopBody env cam s f).2 ∧
    (∀ (s0 : TrackerState K) (fs : List (Interleaving × FrameInput K)),
      Write.new_data false ∉ (runLoop env cam s0 fs).2) := by
  obtain ⟨hf1, hf2, hf3, _⟩ := serviceCalibration_fields s f
  have hrvec : (framePose env cam s f).1 = rvec := by
    simp only [framePose, hf3, ← hsol]
  have htvec : (framePose env cam s f).2 = tvec := by
    simp only [framePose, hf3, ← hsol]
  have hpos : framePosition env cam s f = p := by
    rw [hp, framePosition, hrvec, htvec]
  have hnofalse : ∀ (s : TrackerState K) (f : FrameInput K),
      Write.new_data false ∉ (loopBody env cam s f).2 := by
    intro s f
    cases hflag : s.dp.new_data_available with
    | true => rw [loopBody_ready env cam s f hflag]; simp
    | false =>
      by_cases hc : 0 < (correspondences env cam (serviceCalibration s f).marker_map
          f.markers).1.length
      · rw [loopBody_publish env cam s f hflag hc]; simp [publishWrites]
      · have hc0 : (correspondences env cam (serviceCalibration s f).marker_map
            f.markers).1.length = 0 := by omega
        rw [loopBody_skip env cam s f hflag hc0]; simp
  have hrun : ∀ (s0 : TrackerState K) (fs : List (Interleaving × FrameInput K)),
      Write.new_data false ∉ (runLoop env cam s0 fs).2 := by
    intro s0 fs
    induction fs generalizing s0 with
    | nil => simp [runLoop]
    | cons p rest ih =>
      obtain ⟨i, f2⟩ := p
      unfold runLoop
      simp only
      split
      · simp
      · simp only [List.mem_append, not_or]
        exact ⟨hnofalse _ f2, ih _⟩
  have hdp : (loopBody env cam s f).1.dp = applyWrites s.dp (loopBody env cam s f).2 := by
    cases hflag : s.dp.new_data_available with
    | true =>
      rw [loopBody_ready env cam s f hflag]
      simp [applyWrites, serviceCalibration_dp]
    | false =>
      by_cases hc : 0 < (correspondences env cam (serviceCalibration s f).marker_map
          f.markers).1.length
      · rw [loopBody_publish env cam s f hflag hc]
      · have hc0 : (correspondences env cam (serviceCalibration s f).marker_map
            f.markers).1.length = 0 := by omega
        rw [loopBody_skip env cam s f hflag hc0]
        simp [applyWrites, serviceCalibration_dp]
  refine ⟨hdp, ?_, ?_, ?_, ?_, hnofalse s f, hrun⟩
  all_goals
    cases hflag : s.dp.new_data_available with
    | true =>
      rw [loopBody_ready env cam s f (by simpa using hflag)]
      simp [applyWrites, serviceCalibration_dp]
    | false =>
      by_cases hc : 0 < (correspondences env cam (serviceCalibration s f).marker_map
          f.markers).1.length
      · have hL := loopBody_publish env cam s f hflag hc
        simp only [applyWrites_publish, hpos, hrvec, hf1, hf2, ← hoff, ← hq] at hL
        rw [hL]
        try simp [applyWrites_publish, publishWrites, hmdPosition, predefined_center, hc]
      · have hc0 : (correspondences env cam (serviceCalibration s f).marker_map
            f.markers).1.length = 0 := by omega
        rw [loopBody_skip env cam s f hflag hc0]
        simp [applyWrites, serviceCalibration_dp, hc0]

/-- Witness for C3: the first frame seeing marker 1 from the initial state with the stub
solver (`rvec = (3, 0, 0)`, `tvec = (1, 2, 3)`, identity rotation matrix, no centre
request): the iteration publishes, and the packet then holds the position
`(-1, -2, -3) + (0, 1.75, 0) + 0`, the quaternion computed from `rvec`, and the flag. -/
theorem publish_ordering_witness :
    (initialState [⟨1, unitSquare⟩]).dp.new_data_available = false ∧
    (loopBody demoEnv demoCam (initialState [⟨1, unitSquare⟩]) demoFrame).2 ≠ [] ∧
    (loopBody demoEnv demoCam (initialState [⟨1, unitSquare⟩]) demoFrame).1.dp
      = ⟨⟨-1 + 0 + 0, -2 + 1.75 + 0, -3 + 0 + 0⟩, orientationQuat demoEnv ⟨3, 0, 0⟩, true⟩ :=
  have T := publish_ordering demoEnv demoCam (initialState [⟨1, unitSquare⟩]) demoFrame
    ⟨3, 0, 0⟩ ⟨1, 2, 3⟩ ⟨-1, -2, -3⟩ ⟨0, 0, 0⟩ (orientationQuat demoEnv ⟨3, 0, 0⟩) rfl
    (by simp [invertedPosition, demoEnv, Mat3.mulVec, Mat3.neg, Mat3.t])
    (by simp [servicedOffset, initialState]) rfl
  ⟨rfl, T.2.2.1.2 ⟨rfl, by decide⟩, T.2.2.2.1 (T.2.2.1.2 ⟨rfl, by decide⟩)⟩

/-- C8. No correspondences, no update: when the flag is clear and no detection's id is
in the marker map in force for the frame, the correspondence set is empty, the iteration
performs no store, and the packet (position, orientation, flag), the re-centering offset,
a pending centre request and the has-previous-solution flag are all unchanged. -/
theorem no_correspondence_no_update [LinearOrderedField K] (env : Collaborators K)
    (cam : Intrinsics K) (s : TrackerState K) (f : FrameInput K)
    (hflag : s.dp.new_data_available = false)
    (habsent : ∀ m ∈ f.markers, ∀ e ∈ (serviceCalibration s f).marker_map, m.id ≠ e.id) :
    correspondences env cam (serviceCalibration s f).marker_map f.markers = ([], []) ∧
    (loopBody env cam s f).2 = [] ∧
    (loopBody env cam s f).1.dp = s.dp ∧
    (loopBody env cam s f).1.centre_offset = s.centre_offset ∧
    (loopBody env cam s f).1.set_centre = s.set_centre ∧
    (loopBody env cam s f).1.has_ransac = s.has_ransac := by
  have hc : correspondences env cam (serviceCalibration s f).marker_map f.markers
      = ([], []) := matchLoop_absent env cam _ _ _ habsent
  have hc0 : (correspondences env cam (serviceCalibration s f).marker_map
      f.markers).1.length = 0 := by rw [hc]; rfl
  obtain ⟨h1, h2, h3, _⟩ := serviceCalibration_fields s f
  rw [loopBody_skip env cam s f hflag hc0]
  exact ⟨hc, rfl, serviceCalibration_dp s f, h2, h1, h3⟩

/-- Witness for C8: a detection with id 7 against a map holding only id 1, with a centre
request pending; also the frame with no detections and an empty map. -/
theorem no_correspondence_no_update_witness :
    ((loopBody demoEnv demoCam { initialState [⟨1, unitSquare⟩] with set_centre := true }
        ⟨[], [demoMarker 7], false⟩).1.set_centre = true ∧
     (loopBody demoEnv demoCam { initialState [⟨1, unitSquare⟩] with set_centre := true }
        ⟨[], [demoMarker 7], false⟩).1.dp = (initialState [⟨1, unitSquare⟩]).dp) ∧
    (loopBody demoEnv demoCam (initialState []) ⟨[], [], false⟩).2 = [] :=
  ⟨⟨(no_correspondence_no_update demoEnv demoCam
      { initialState [⟨1, unitSquare⟩] with set_centre := true } ⟨[], [demoMarker 7], false⟩
      rfl (by simp [serviceCalibration, initialState, demoMarker])).2.2.2.2.1,
    (no_correspondence_no_update demoEnv demoCam
      { initialState [⟨1, unitSquare⟩] with set_centre := true } ⟨[], [demoMarker 7], false⟩
      rfl (by simp [serviceCalibration, initialState, demoMarker])).2.2.1⟩,
   (no_correspondence_no_update demoEnv demoCam (initialState []) ⟨[], [], false⟩
      rfl (by simp)).2.1⟩

/-- C4. Published position: on a pose-producing frame (flag clear, correspondence set
non-empty) with solver translation `t` and rotation matrix `R` obtained from the solver's
rotation vector, the position stored in the packet is `-(Rᵗ t) + (0, 1.75, 0) + c`
component-wise, where `c` is the re-centering offset after the iteration; and `c` is the
previous offset when no centre request was pending. -/
theorem published_position [LinearOrderedField K] (env : Collaborators K)
    (cam : Intrinsics K) (s : TrackerState K) (f : FrameInput K)
    (hflag : s.dp.new_data_available = false)
    (hc : 0 < (correspondences env cam (serviceCalibration s f).marker_map f.markers).1.length)
    (R : Mat3 K) (t c : Vec3 K)
    (hR : R = env.Rodrigues (framePose env cam s f).1)
    (ht : t = (framePose env cam s f).2)
    (hoff : c = (loopBody env cam s f).1.centre_offset) :
    (loopBody env cam s f).1.dp.hmd_position.x
      = -(R.m00 * t.x + R.m10 * t.y + R.m20 * t.z) + 0 + c.x ∧
    (loopBody env cam s f).1.dp.hmd_position.y
      = -(R.m01 * t.x + R.m11 * t.y + R.m21 * t.z) + 1.75 + c.y ∧
    (loopBody env cam s f).1.dp.hmd_position.z
      = -(R.m02 * t.x + R.m12 * t.y + R.m22 * t.z) + 0 + c.z ∧
    (s.set_centre = false → c = s.centre_offset) := by
  subst hR ht hoff
  rw [loopBody_publish env cam s f hflag hc]
  simp only [applyWrites_publish]
  obtain ⟨h1, h2, _, _⟩ := serviceCalibration_fields s f
  refine ⟨?_, ?_, ?_, ?_⟩
  · simp only [hmdPosition, framePosition, invertedPosition, predefined_center, Mat3.mulVec,
      Mat3.neg, Mat3.t]
    ring
  · simp only [hmdPosition, framePosition, invertedPosition, predefined_center, Mat3.mulVec,
      Mat3.neg, Mat3.t]
    ring
  · simp only [hmdPosition, framePosition, invertedPosition, predefined_center, Mat3.mulVec,
      Mat3.neg, Mat3.t]
    ring
  · intro hs
    simp [servicedOffset, h1, h2, hs]

/-- Witness for C4: the first frame seeing marker 1 from the initial state, with the stub
solver (`R` the identity, `t = (1, 2, 3)`) and no centre request: the stored height is
`-2 + 1.75 + 0`. -/
theorem published_position_witness :
    (initialState [⟨1, unitSquare⟩]).dp.new_data_available = false ∧
    (loopBody demoEnv demoCam (initialState [⟨1, unitSquare⟩])
        ⟨[], [demoMarker 1], false⟩).1.dp.hmd_position.y = -(0 * 1 + 1 * 2 + 0 * 3) + 1.75 + 0 :=
  ⟨rfl,
   (published_position demoEnv demoCam (initialState [⟨1, unitSquare⟩])
      ⟨[], [demoMarker 1], false⟩ rfl
      (by simp [correspondences, matchLoop, matchMarker, serviceCalibration, initialState,
            demoMarker, imagePointsOf, demoEnv, unitSquare])
      ⟨1, 0, 0, 0, 1, 0, 0, 0, 1⟩ ⟨1, 2, 3⟩ ⟨0, 0, 0⟩ rfl rfl
      (by simp [loopBody, solveAndPublish, servicedOffset, correspondences, matchLoop,
            matchMarker, serviceCalibration, initialState, demoMarker, imagePointsOf, demoEnv,
            unitSquare])).2.1⟩

/-- C5. Centering: when a centre request is pending on a pose-producing frame with
pre-offset position `p`, the re-centering offset becomes `-p` and the request is cleared;
and servicing a centre request on any later pose-producing frame that computes the same
pre-offset position yields the same offset again, so the second servicing changes the
offset by zero. -/
theorem centring [LinearOrderedField K] (env : Collaborators K)
    (cam : Intrinsics K) (s : TrackerState K) (f : FrameInput K)
    (hflag : s.dp.new_data_available = false)
    (hc : 0 < (correspondences env cam (serviceCalibration s f).marker_map f.markers).1.length)
    (hcentre : s.set_centre = true) :
    (loopBody env cam s f).1.centre_offset
      = ⟨-(framePosition env cam s f).x, -(framePosition env cam s f).y,
         -(framePosition env cam s f).z⟩ ∧
    (loopBody env cam s f).1.set_centre = false ∧
    (∀ (s2 : TrackerState K) (f2 : FrameInput K),
      s2.dp.new_data_available = false →
      0 < (correspondences env cam (serviceCalibration s2 f2).marker_map f2.markers).1.length →
      s2.set_centre = true →
      framePosition env cam s2 f2 = framePosition env cam s f →
      (loopBody env cam s2 f2).1.centre_offset = (loopBody env cam s f).1.centre_offset ∧
      (loopBody env cam s2 f2).1.centre_offset.x - (loopBody env cam s f).1.centre_offset.x = 0 ∧
      (loopBody env cam s2 f2).1.centre_offset.y - (loopBody env cam s f).1.centre_offset.y = 0 ∧
      (loopBody env cam s2 f2).1.centre_offset.z - (loopBody env cam s f).1.centre_offset.z = 0)
    := by
  have hoff : ∀ (s : TrackerState K) (f : FrameInput K),
      s.dp.new_data_available = false →
      0 < (correspondences env cam (serviceCalibration s f).marker_map f.markers).1.length →
      s.set_centre = true →
      (loopBody env cam s f).1.centre_offset
        = ⟨-(framePosition env cam s f).x, -(framePosition env cam s f).y,
           -(framePosition env cam s f).z⟩ := by
    intro s f hflag hc hcentre
    rw [loopBody_publish env cam s f hflag hc]
    simp [servicedOffset, (serviceCalibration_fields s f).1, hcentre]
  refine ⟨hoff s f hflag hc hcentre, ?_, ?_⟩
  · rw [loopBody_publish env cam s f hflag hc]
  · intro s2 f2 hflag2 hc2 hcentre2 hsame
    have heq : (loopBody env cam s2 f2).1.centre_offset
        = (loopBody env cam s f).1.centre_offset := by
      rw [hoff s2 f2 hflag2 hc2 hcentre2, hoff s f hflag hc hcentre, hsame]
    refine ⟨heq, ?_, ?_, ?_⟩ <;> rw [heq] <;> exact sub_self _

/-- Witness for C5: `centre` is serviced on two successive frames seeing marker 1 with the
stub solver (pre-offset position `(-1, -2, -3)` both times): the offset is `(1, 2, 3)`
after the first and after the second servicing. -/
theorem centring_witness :
    centreState.set_centre = true ∧ secondCentreState.set_centre = true ∧
    (loopBody demoEnv demoCam centreState demoFrame).1.centre_offset = ⟨1, 2, 3⟩ ∧
    (loopBody demoEnv demoCam secondCentreState demoFrame).1.centre_offset
      = (loopBody demoEnv demoCam centreState demoFrame).1.centre_offset :=
  have h1 : centreState.dp.new_data_available = false := rfl
  have h2 : 0 < (correspondences demoEnv demoCam
      (serviceCalibration centreState demoFrame).marker_map demoFrame.markers).1.length := by
    simp [correspondences, matchLoop, matchMarker, serviceCalibration, initialState,
      centreState, demoFrame, demoMarker, imagePointsOf, demoEnv, unitSquare]
  have h3 : secondCentreState.dp.new_data_available = false := by decide
  have h4 : secondCentreState.set_centre = true := by decide
  have h5 : 0 < (correspondences demoEnv demoCam
      (serviceCalibration secondCentreState demoFrame).marker_map demoFrame.markers).1.length := by
    decide
  have h6 : framePosition demoEnv demoCam secondCentreState demoFrame
      = framePosition demoEnv demoCam centreState demoFrame := by
    simp [framePosition, framePose, demoEnv, invertedPosition]
  have h7 : framePosition demoEnv demoCam centreState demoFrame = ⟨-1, -2, -3⟩ := by
    simp [framePosition, framePose, demoEnv, invertedPosition, Mat3.mulVec, Mat3.neg, Mat3.t]
  ⟨rfl, h4,
   by rw [(centring demoEnv demoCam centreState demoFrame h1 h2 rfl).1, h7]; simp,
   ((centring demoEnv demoCam centreState demoFrame h1 h2 rfl).2.2
      secondCentreState demoFrame h3 h5 h4 h6).1⟩

/-- C7, the code at a degenerate rotation: with the flag clear, marker 1 detected and
mapped, and a solver returning the zero rotation vector (so `theta = 0`), the iteration
still performs the eight stores of the publish block, writes the position
`(-1, -2 + 1.75, -3)` and sets `new_data_available`; the frame is not skipped. -/
theorem degenerate_rotation_is_published :
    rotationAngle zeroRotationEnv
      (framePose zeroRotationEnv demoCam (initialState [⟨1, unitSquare⟩]) demoFrame).1 = 0 ∧
    (initialState [⟨1, unitSquare⟩]).dp.new_data_available = false ∧
    (correspondences zeroRotationEnv demoCam [⟨1, unitSquare⟩] demoFrame.markers).1.length = 4 ∧
    (loopBody zeroRotationEnv demoCam (initialState [⟨1, unitSquare⟩]) demoFrame).2.length = 8 ∧
    (loopBody zeroRotationEnv demoCam (initialState [⟨1, unitSquare⟩])
      demoFrame).1.dp.new_data_available = true ∧
    (loopBody zeroRotationEnv demoCam (initialState [⟨1, unitSquare⟩])
      demoFrame).1.dp.hmd_position = ⟨-1, -1 / 4, -3⟩ ∧
    (loopBody zeroRotationEnv demoCam (initialState [⟨1, unitSquare⟩]) demoFrame).1.dp
      ≠ (initialState [⟨1, unitSquare⟩]).dp := by
  have hc : 0 < (correspondences zeroRotationEnv demoCam
      (serviceCalibration (initialState [⟨1, unitSquare⟩]) demoFrame).marker_map
      demoFrame.markers).1.length := by
    simp [correspondences, matchLoop, matchMarker, serviceCalibration, initialState,
      demoFrame, demoMarker, imagePointsOf, demoEnv, zeroRotationEnv, unitSquare]
  have hp : framePosition zeroRotationEnv demoCam (initialState [⟨1, unitSquare⟩]) demoFrame
      = ⟨-1, -2, -3⟩ := by
    simp [framePosition, framePose, demoEnv, zeroRotationEnv, invertedPosition, Mat3.mulVec,
      Mat3.neg, Mat3.t]
  have hL := loopBody_publish zeroRotationEnv demoCam (initialState [⟨1, unitSquare⟩])
    demoFrame rfl hc
  simp only [applyWrites_publish, hp] at hL
  refine ⟨?_, rfl, ?_, ?_, ?_, ?_, ?_⟩
  · simp [rotationAngle, framePose, zeroRotationEnv, demoEnv]
  · simp [correspondences, matchLoop, matchMarker, demoFrame, demoMarker, imagePointsOf,
      demoEnv, zeroRotationEnv, unitSquare]
  · rw [hL]; simp [publishWrites]
  · rw [hL]
  · rw [hL]
    simp [hmdPosition, servicedOffset, serviceCalibration, initialState, predefined_center]
    norm_num
  · rw [hL]; simp [initialState]

/-- C6. Quaternion normalization: over the reals, with `sqrt`, `sin`, `cos` the real
functions, for every rotation vector `r` whose magnitude `θ` is non-zero the orientation
`(x, y, z, w) = (q.x, q.y, q.z, -q.w)`, with
`q = normalize(quat(w=0, x=1, y=0, z=0)) * angleAxis(θ, r / θ)`, satisfies
`x² + y² + z² + w² = 1`; its components are
`(cos(θ/2), -(r.z/θ) sin(θ/2), (r.y/θ) sin(θ/2), (r.x/θ) sin(θ/2))`; and it is the
quaternion stored in the packet by every pose-producing iteration whose solver returns
`r`. -/
theorem quaternion_unit_norm (env : Collaborators ℝ)
    (hsqrt : env.sqrt = Real.sqrt) (hsin : env.sin = Real.sin) (hcos : env.cos = Real.cos)
    (r : Vec3 ℝ) (hθ : rotationAngle env r ≠ 0) :
    (orientationQuat env r).x ^ 2 + (orientationQuat env r).y ^ 2
      + (orientationQuat env r).z ^ 2 + (orientationQuat env r).w ^ 2 = 1 ∧
    (orientationQuat env r).x = Real.cos (rotationAngle env r * (1 / 2)) ∧
    (orientationQuat env r).y
      = -(r.z / rotationAngle env r * Real.sin (rotationAngle env r * (1 / 2))) ∧
    (orientationQuat env r).z
      = r.y / rotationAngle env r * Real.sin (rotationAngle env r * (1 / 2)) ∧
    (orientationQuat env r).w
      = r.x / rotationAngle env r * Real.sin (rotationAngle env r * (1 / 2)) ∧
    (∀ (cam : Intrinsics ℝ) (s : TrackerState ℝ) (f : FrameInput ℝ),
      s.dp.new_data_available = false →
      0 < (correspondences env cam (serviceCalibration s f).marker_map f.markers).1.length →
      (framePose env cam s f).1 = r →
      (loopBody env cam s f).1.dp.hmd_quaternion = orientationQuat env r) := by
  have hnorm : Quat.normalize env.sqrt (⟨0, 1, 0, 0⟩ : Quat ℝ) = ⟨0, 1, 0, 0⟩ := by
    simp [Quat.normalize, Quat.length, hsqrt]
  have hx : (orientationQuat env r).x = Real.cos (rotationAngle env r * (1 / 2)) := by
    simp [orientationQuat, hnorm, Quat.mul, angleAxis, hcos]
  have hy : (orientationQuat env r).y
      = -(r.z / rotationAngle env r * Real.sin (rotationAngle env r * (1 / 2))) := by
    simp [orientationQuat, hnorm, Quat.mul, angleAxis, hsin]
  have hz : (orientationQuat env r).z
      = r.y / rotationAngle env r * Real.sin (rotationAngle env r * (1 / 2)) := by
    simp [orientationQuat, hnorm, Quat.mul, angleAxis, hsin]
  have hw : (orientationQuat env r).w
      = r.x / rotationAngle env r * Real.sin (rotationAngle env r * (1 / 2)) := by
    simp [orientationQuat, hnorm, Quat.mul, angleAxis, hsin]
  have hsq : rotationAngle env r * rotationAngle env r
      = r.x * r.x + r.y * r.y + r.z * r.z := by
    simp only [rotationAngle, hsqrt]
    exact Real.mul_self_sqrt
      (add_nonneg (add_nonneg (mul_self_nonneg _) (mul_self_nonneg _)) (mul_self_nonneg _))
  have htrig := Real.sin_sq_add_cos_sq (rotationAngle env r * (1 / 2))
  refine ⟨?_, hx, hy, hz, hw, ?_⟩
  · rw [hx, hy, hz, hw]
    generalize Real.sin (rotationAngle env r * (1 / 2)) = sn at htrig ⊢
    generalize Real.cos (rotationAngle env r * (1 / 2)) = cs at htrig ⊢
    generalize rotationAngle env r = th at hθ hsq ⊢
    field_simp
    linear_combination th ^ 2 * htrig - sn ^ 2 * hsq
  · intro cam s f hflag hc hr
    rw [loopBody_publish env cam s f hflag hc]
    simp only [applyWrites_publish, hr]

/-- Witness for C6: the rotation vector `(1, 0, 0)` has magnitude `1`, and the published
orientation for it has unit norm. -/
theorem quaternion_unit_norm_witness :
    rotationAngle (⟨Real.sqrt, Real.sin, Real.cos, fun _ _ _ _ _ => [],
        fun _ _ _ _ _ => (⟨1, 0, 0⟩, ⟨0, 0, 0⟩), fun _ => ⟨1, 0, 0, 0, 1, 0, 0, 0, 1⟩⟩ :
        Collaborators ℝ) ⟨1, 0, 0⟩ ≠ 0 ∧
    (orientationQuat (⟨Real.sqrt, Real.sin, Real.cos, fun _ _ _ _ _ => [],
        fun _ _ _ _ _ => (⟨1, 0, 0⟩, ⟨0, 0, 0⟩), fun _ => ⟨1, 0, 0, 0, 1, 0, 0, 0, 1⟩⟩ :
        Collaborators ℝ) ⟨1, 0, 0⟩).x ^ 2
    + (orientationQuat (⟨Real.sqrt, Real.sin, Real.cos, fun _ _ _ _ _ => [],
        fun _ _ _ _ _ => (⟨1, 0, 0⟩, ⟨0, 0, 0⟩), fun _ => ⟨1, 0, 0, 0, 1, 0, 0, 0, 1⟩⟩ :
        Collaborators ℝ) ⟨1, 0, 0⟩).y ^ 2
    + (orientationQuat (⟨Real.sqrt, Real.sin, Real.cos, fun _ _ _ _ _ => [],
        fun _ _ _ _ _ => (⟨1, 0, 0⟩, ⟨0, 0, 0⟩), fun _ => ⟨1, 0, 0, 0, 1, 0, 0, 0, 1⟩⟩ :
        Collaborators ℝ) ⟨1, 0, 0⟩).z ^ 2
    + (orientationQuat (⟨Real.sqrt, Real.sin, Real.cos, fun _ _ _ _ _ => [],
        fun _ _ _ _ _ => (⟨1, 0, 0⟩, ⟨0, 0, 0⟩), fun _ => ⟨1, 0, 0, 0, 1, 0, 0, 0, 1⟩⟩ :
        Collaborators ℝ) ⟨1, 0, 0⟩).w ^ 2 = 1 :=
  ⟨by simp [rotationAngle],
   (quaternion_unit_norm _ rfl rfl rfl ⟨1, 0, 0⟩ (by simp [rotationAngle])).1⟩

/-- C9 as stated fails: the file `3 3 1 2` declares a 3×3 camera matrix, holds two values
and no second block, so it does not match the layout; yet `loadCalibration` returns true,
startup does not abort, and the entries without a value are 0. -/
theorem short_file_reports_success :
    matchesLayout shortFile = false ∧
    loadCalibration (literalStream : Extraction IfStream ℚ) demoIndeterminate
        (openedFile shortFile) ⟨0, 0, []⟩ ⟨0, 0, []⟩
      = some (true, ⟨3, 3, [1, 2, 0, 0, 0, 0, 0, 0, 0]⟩, ⟨3, 3, [0, 0, 0, 0, 0, 0, 0, 0, 0]⟩) ∧
    startupAborts (literalStream : Extraction IfStream ℚ) demoIndeterminate
        (openedFile shortFile) = some false := by
  have h : loadCalibration (literalStream : Extraction IfStream ℚ) demoIndeterminate
        (openedFile shortFile) ⟨0, 0, []⟩ ⟨0, 0, []⟩
      = some (true, ⟨3, 3, [1, 2, 0, 0, 0, 0, 0, 0, 0]⟩,
          ⟨3, 3, [0, 0, 0, 0, 0, 0, 0, 0, 0]⟩) := by
    simp [loadCalibration, readValues, readRows, readRow, Mat.create, Mat.setAt, Mat.zeros,
      literalStream, IfStream.readU16, IfStream.readDouble, openedFile, shortFile,
      demoIndeterminate, List.range_succ]
  refine ⟨by decide, h, ?_⟩
  simp [startupAborts, h]

/-- C9, amended. `loadCalibration` returns false when the file cannot be opened, leaving
both output matrices as they were, and on no other path: whatever the extraction operators
do with the content, a load of an opened file that runs to completion returns true; and it
does run to completion, returning true, whenever the first header read does not have
`rows > cols ≥ 1` (the one shape for which line 44 stores past the buffer that line 36
allocates). So a shortfall of values against the declared dimensions is not reported. -/
theorem calibration_load_result [LinearOrderedField K] {S : Type} (ops : Extraction S K)
    (ind : Indeterminate K) (file : Option S) (camera_matrix distance_coefficients : Mat K) :
    (file = none → loadCalibration ops ind file camera_matrix distance_coefficients
      = some (false, camera_matrix, distance_coefficients)) ∧
    (∀ res, loadCalibration ops ind file camera_matrix distance_coefficients = some res →
      (res.1 = false ↔ file = none)) ∧
    (∀ instream, file = some instream →
      ¬ (1 ≤ (firstHeader ops ind instream).2 ∧
          (firstHeader ops ind instream).2 < (firstHeader ops ind instream).1) →
      ∃ cm dc, loadCalibration ops ind file camera_matrix distance_coefficients
        = some (true, cm, dc)) := by
  refine ⟨?_, ?_, ?_⟩
  · intro h; subst h; rfl
  · intro res hres
    cases file with
    | none =>
      simp only [loadCalibration, Option.some.injEq] at hres
      subst hres; simp
    | some instream =>
      simp only [loadCalibration] at hres
      split at hres
      · cases hres
      · split at hres
        · cases hres
        · simp only [Option.some.injEq] at hres
          subst hres; simp
  · intro instream hfile hshape
    subst hfile
    simp only [firstHeader] at hshape
    obtain ⟨block1, h1⟩ := readValues_defined ops (ops.readU16 instream ind.rows).1
      (ops.readU16 (ops.readU16 instream ind.rows).2 ind.cols).1
      (ops.readU16 (ops.readU16 instream ind.rows).2 ind.cols).2
      (Mat.create (ops.readU16 instream ind.rows).1
        (ops.readU16 (ops.readU16 instream ind.rows).2 ind.cols).1 ind.buffer)
      (fun r hr c hc => create_in_bounds ind.buffer _ _ r c hshape hr hc)
    simp only [loadCalibration, h1]
    obtain ⟨block2, h2⟩ := readValues_defined ops
      (ops.readU16 block1.1 (ops.readU16 instream ind.rows).1).1
      (ops.readU16 (ops.readU16 block1.1 (ops.readU16 instream ind.rows).1).2
        (ops.readU16 (ops.readU16 instream ind.rows).2 ind.cols).1).1
      (ops.readU16 (ops.readU16 block1.1 (ops.readU16 instream ind.rows).1).2
        (ops.readU16 (ops.readU16 instream ind.rows).2 ind.cols).1).2
      (Mat.zeros
        (ops.readU16 (ops.readU16 block1.1 (ops.readU16 instream ind.rows).1).2
          (ops.readU16 (ops.readU16 instream ind.rows).2 ind.cols).1).1
        (ops.readU16 block1.1 (ops.readU16 instream ind.rows).1).1)
      (fun r hr c hc => zeros_in_bounds _ _ r c hr hc)
    simp only [h2]
    exact ⟨_, _, rfl⟩

/-- Witness for C9: the file `2 2 9` can be opened, its header `2 2` is not of the shape
`rows > cols ≥ 1`, and although eight of the declared values are missing the load returns
true. -/
theorem calibration_load_result_witness :
    ¬ (1 ≤ (firstHeader (literalStream : Extraction IfStream ℚ) demoIndeterminate
          ⟨shorterFile, false⟩).2 ∧
        (firstHeader (literalStream : Extraction IfStream ℚ) demoIndeterminate
          ⟨shorterFile, false⟩).2
          < (firstHeader (literalStream : Extraction IfStream ℚ) demoIndeterminate
              ⟨shorterFile, false⟩).1) ∧
    matchesLayout shorterFile = false ∧
    ∃ cm dc, loadCalibration (literalStream : Extraction IfStream ℚ) demoIndeterminate
      (openedFile shorterFile) ⟨0, 0, []⟩ ⟨0, 0, []⟩ = some (true, cm, dc) :=
  ⟨by decide, by decide,
   (calibration_load_result (literalStream : Extraction IfStream ℚ) demoIndeterminate
      (openedFile shorterFile) ⟨0, 0, []⟩ ⟨0, 0, []⟩).2.2 ⟨shorterFile, false⟩ rfl
      (by decide)⟩

/-- C10, the code on a non-square camera block: the file
`2 3 1 2 3 4 5 6 1 5 11 12 13 14 15` matches the layout and declares a 2×3 camera matrix
with values 1..6, but whatever the uninitialised memory holds, the loaded camera matrix has
3 rows and 2 columns, its buffer is `1, 2, 4, 5, 6` followed by an uninitialised element
(the value 3 is overwritten), and re-serialising it does not give back `2 3 1 2 3 4 5 6`;
the 1×5 distortion block of the same file is loaded as declared. -/
theorem wide_file_camera_matrix (ind : Indeterminate ℚ) :
    matchesLayout wideFile = true ∧
    loadCalibration (literalStream : Extraction IfStream ℚ) ind (openedFile wideFile)
        ⟨0, 0, []⟩ ⟨0, 0, []⟩
      = some (true, ⟨3, 2, [1, 2, 4, 5, 6, ind.buffer 5]⟩, ⟨1, 5, [11, 12, 13, 14, 15]⟩) ∧
    serialise (⟨3, 2, [1, 2, 4, 5, 6, ind.buffer 5]⟩ : Mat ℚ)
      ≠ [some 2, some 3, some 1, some 2, some 3, some 4, some 5, some 6] ∧
    serialise (⟨1, 5, [11, 12, 13, 14, 15]⟩ : Mat ℚ)
      = [some 1, some 5, some 11, some 12, some 13, some 14, some 15] := by
  refine ⟨by decide, ?_, ?_, ?_⟩
  · simp [loadCalibration, readValues, readRows, readRow, Mat.create, Mat.setAt, Mat.zeros,
      literalStream, IfStream.readU16, IfStream.readDouble, openedFile, wideFile,
      List.range_succ]
  · simp [serialise]
  · simp [serialise, List.range_succ, Mat.at]

end Claims

end VRUco
